import Mathlib

/-!
# Verification of the easy-tile room/tile visualizer

Shallow embedding of the easy-tile TypeScript sources in Lean 4, together
with theorems settling the specification claims.  JavaScript numbers are
modelled as rationals (`ℚ`), except for the orbit-control rotations where
the clamp bound is `π/2` and the model uses `ℝ`.  Fallible operations
return `Option`.  Each definition is translated from the corresponding
source function; the few definitions whose source revision is not present
in the repository snapshot are marked `Modelled from the spec:` in their
doc comment.
-/

namespace EasyTile

/-! ## Math utilities (src/lib/math.ts) -/

/-- `calculateTileCount(roomDimension, tileSize, spacing)` from
`src/lib/math.ts`.  Returns a JS number (here `ℚ`); `Math.floor` is
`Int.floor`. -/
def calculateTileCount (roomDimension tileSize spacing : ℚ) : ℚ :=
  if tileSize ≤ 0 ∨ spacing < 0 then 0
  else if tileSize + spacing = 0 then 0
  else ((⌊roomDimension / (tileSize + spacing)⌋ : ℤ) : ℚ)

/-- `clamp(value, min, max)` from `src/lib/math.ts`:
`Math.min(Math.max(value, min), max)`. -/
def clamp (value lo hi : ℚ) : ℚ :=
  min (max value lo) hi

/-- JavaScript `Math.round`: rounds half toward positive infinity. -/
def jsRound (q : ℚ) : ℤ :=
  ⌊q + 1/2⌋

/-- The lowercase hexadecimal digit characters produced by JavaScript
`Number.prototype.toString(16)`. -/
def hexDigitChar (n : ℕ) : Char :=
  if n < 10 then Char.ofNat (48 + n) else Char.ofNat (87 + n)

/-- `n.toString(16)` for an integer `0 ≤ n < 256`: one lowercase hex digit
when `n < 16`, two otherwise. -/
def natToHexString (n : ℕ) : List Char :=
  if n < 16 then [hexDigitChar n] else [hexDigitChar (n / 16), hexDigitChar (n % 16)]

/-- Left-padding of `toHex`: `hex.length === 1 ? '0' + hex : hex`. -/
def padHexPair (hex : List Char) : List Char :=
  if hex.length = 1 then '0' :: hex else hex

/-- The inner `toHex` helper of `rgbToHex`:
`Math.round(clamp(n, 0, 255)).toString(16)`, left-padded with `'0'` to two
characters. -/
def toHexComponent (q : ℚ) : List Char :=
  padHexPair (natToHexString (jsRound (clamp q 0 255)).toNat)

/-- `rgbToHex(r, g, b)` from `src/lib/math.ts`. -/
def rgbToHex (r g b : ℚ) : String :=
  ⟨'#' :: (toHexComponent r ++ toHexComponent g ++ toHexComponent b)⟩

/-- One character class `[a-f\d]` of the `hexToRgb` regular expression,
with the `i` (case-insensitive) flag: a decimal digit or a letter `a`-`f`
in either case. -/
def isHexDigit (c : Char) : Bool :=
  ('0' ≤ c ∧ c ≤ '9') ∨ ('a' ≤ c ∧ c ≤ 'f') ∨ ('A' ≤ c ∧ c ≤ 'F')

/-- Value of a single hexadecimal digit as read by `parseInt(_, 16)`. -/
def hexVal (c : Char) : ℕ :=
  if '0' ≤ c ∧ c ≤ '9' then c.toNat - 48
  else if 'a' ≤ c ∧ c ≤ 'f' then c.toNat - 87
  else if 'A' ≤ c ∧ c ≤ 'F' then c.toNat - 55
  else 0

/-- `parseInt` of a two-hex-digit capture group. -/
def parseHexPair (c₁ c₂ : Char) : ℕ :=
  16 * hexVal c₁ + hexVal c₂

/-- Result record of `hexToRgb`. -/
structure RGB where
  r : ℕ
  g : ℕ
  b : ℕ
deriving DecidableEq, Repr

/-- Consumption of the optional anchor `^#?`: drop one leading `'#'` when
present (since `'#'` is not in `[a-f\d]`, this is equivalent to the
regex's backtracking behavior on every input). -/
def stripHash (cs : List Char) : List Char :=
  match cs with
  | c :: rest => if c = '#' then rest else c :: rest
  | [] => []

/-- The three capture groups `([a-f\d]{2}){3}` applied after the anchor:
exactly six hexadecimal digits, parsed pairwise with `parseInt(_, 16)`. -/
def parseHexBody (body : List Char) : Option RGB :=
  match body with
  | [c₁, c₂, c₃, c₄, c₅, c₆] =>
      if isHexDigit c₁ ∧ isHexDigit c₂ ∧ isHexDigit c₃ ∧ isHexDigit c₄ ∧
         isHexDigit c₅ ∧ isHexDigit c₆ then
        some ⟨parseHexPair c₁ c₂, parseHexPair c₃ c₄, parseHexPair c₅ c₆⟩
      else none
  | _ => none

/-- `hexToRgb(hex)` from `src/lib/math.ts`: matches
`/^#?([a-f\d]{2})([a-f\d]{2})([a-f\d]{2})$/i` and parses the three capture
groups with `parseInt(_, 16)`; returns `null` when the regex does not
match. -/
def hexToRgb (hex : String) : Option RGB :=
  parseHexBody (stripHash hex.data)

/-- `parseInt(_, 16)` applied to a two-character capture group given as a
list (any other shape is unreachable). -/
def parseHexPairList : List Char → ℕ
  | [c₁, c₂] => parseHexPair c₁ c₂
  | _ => 0

/-- A string consists of six hexadecimal digits with an optional leading
`'#'` (the language of the `hexToRgb` regular expression). -/
def IsSixHexWithOptionalHash (s : String) : Prop :=
  ∃ body : List Char,
    (s.data = body ∨ s.data = '#' :: body) ∧
    body.length = 6 ∧ (∀ c ∈ body, isHexDigit c = true)

/-! ## Data model (src/types/room.types.ts, src/types/wall.types.ts) -/

/-- `WallId` from `src/types/wall.types.ts`: the four editable walls. -/
inductive WallId where
  | front
  | back
  | left
  | right
deriving DecidableEq, Repr

/-- The string literal a `WallId` stands for in the TypeScript union type. -/
def WallId.str : WallId → String
  | .front => "front"
  | .back => "back"
  | .left => "left"
  | .right => "right"

/-- `TileConfig` from `src/types/wall.types.ts`. -/
structure TileConfig where
  imageUrl : Option String
  tileWidth : ℚ
  tileHeight : ℚ
  spacing : ℚ
  groutColor : String
deriving DecidableEq, Repr

/-- `DEFAULT_TILE_CONFIG` from `src/types/wall.types.ts`. -/
def DEFAULT_TILE_CONFIG : TileConfig :=
  { imageUrl := none, tileWidth := 300, tileHeight := 300, spacing := 3,
    groutColor := "#cccccc" }

/-- `WallConfigs` from `src/types/wall.types.ts`: one `TileConfig` per
editable wall. -/
structure WallConfigs where
  front : TileConfig
  back : TileConfig
  left : TileConfig
  right : TileConfig
deriving DecidableEq, Repr

/-- Indexing `wallConfigs[wallId]`. -/
def WallConfigs.get (cs : WallConfigs) : WallId → TileConfig
  | .front => cs.front
  | .back => cs.back
  | .left => cs.left
  | .right => cs.right

/-- Functional update of `wallConfigs[wallId] = c`. -/
def WallConfigs.set (cs : WallConfigs) : WallId → TileConfig → WallConfigs
  | .front, c => { cs with front := c }
  | .back, c => { cs with back := c }
  | .left, c => { cs with left := c }
  | .right, c => { cs with right := c }

/-- `RoomDimensions` from `src/types/room.types.ts` (final revision:
values in meters). -/
structure RoomDimensions where
  width : ℚ
  height : ℚ
  length : ℚ
deriving DecidableEq, Repr

/-- `DEFAULT_ROOM_DIMENSIONS` from `src/types/room.types.ts` (final
revision, meters). -/
def DEFAULT_ROOM_DIMENSIONS : RoomDimensions :=
  { width := 3, height := 5/2, length := 4 }

/-! ## Local storage (src/lib/storage.ts)

Local storage is modelled as one typed cell per `STORAGE_KEYS` entry used
by the stores: `none` means the key is absent.  The `SELECTED_WALL` key
stores the JSON serialization of `selectedWallId : WallId | null`, so its
cell holds an `Option (Option String)`.  Serialization itself is injective
JSON of these records, so the cells hold the typed values directly. -/

structure Storage where
  room : Option RoomDimensions
  walls : Option WallConfigs
  selectedWall : Option (Option String)
deriving DecidableEq, Repr

/-- A browser profile that has never run the application: every key is
absent. -/
def Storage.empty : Storage :=
  { room := none, walls := none, selectedWall := none }

/-- `loadFromStorage<WallId | null>(STORAGE_KEYS.SELECTED_WALL)`: the
helper returns `null` both when the key is absent and when the stored
JSON is `null`, so the two collapse. -/
def Storage.readSelectedWall (st : Storage) : Option String :=
  st.selectedWall.bind id

/-! ## RoomModel (src/model/room.model.ts, final revision with the
millimeter-migration heuristic) -/

/-- Observable state of `RoomModel`. -/
structure RoomModel where
  width : ℚ
  height : ℚ
  length : ℚ
deriving DecidableEq, Repr

/-- Field initializers of `RoomModel`. -/
def RoomModel.initial : RoomModel :=
  { width := DEFAULT_ROOM_DIMENSIONS.width,
    height := DEFAULT_ROOM_DIMENSIONS.height,
    length := DEFAULT_ROOM_DIMENSIONS.length }

/-- `RoomModel.saveToStorage`: writes the current dimensions to the
`ROOM` key. -/
def RoomModel.save (r : RoomModel) (st : Storage) : Storage :=
  { st with room := some ⟨r.width, r.height, r.length⟩ }

/-- `RoomModel.loadFromStorage` (final revision, `src/model/room.model.ts`
lines 91-108): when stored data exists and any dimension exceeds 100 the
values are treated as legacy millimeters, divided by 1000 and written
back to storage; otherwise the stored values are adopted unchanged; when
nothing is stored the current (default) values are kept.  Returns the new
model state together with the storage after the optional write-back. -/
def RoomModel.loadFromStorage (r : RoomModel) (st : Storage) : RoomModel × Storage :=
  match st.room with
  | none => (r, st)
  | some stored =>
      if 100 < stored.width ∨ 100 < stored.height ∨ 100 < stored.length then
        let r' : RoomModel :=
          { width := stored.width / 1000, height := stored.height / 1000,
            length := stored.length / 1000 }
        (r', r'.save st)
      else
        (⟨stored.width, stored.height, stored.length⟩, st)

/-- `RoomModel.setDimensions`. -/
def RoomModel.setDimensions (_r : RoomModel) (st : Storage) (w h l : ℚ) :
    RoomModel × Storage :=
  let r' : RoomModel := { width := w, height := h, length := l }
  (r', r'.save st)

/-- `RoomModel.setWidth`. -/
def RoomModel.setWidth (r : RoomModel) (st : Storage) (w : ℚ) : RoomModel × Storage :=
  let r' : RoomModel := { r with width := w }
  (r', r'.save st)

/-- `RoomModel.setHeight`. -/
def RoomModel.setHeight (r : RoomModel) (st : Storage) (h : ℚ) : RoomModel × Storage :=
  let r' : RoomModel := { r with height := h }
  (r', r'.save st)

/-- `RoomModel.setLength`. -/
def RoomModel.setLength (r : RoomModel) (st : Storage) (l : ℚ) : RoomModel × Storage :=
  let r' : RoomModel := { r with length := l }
  (r', r'.save st)

/-! ## WallModel (src/model/wall.model.ts)

`selectedWallId` and `hoveredWallId` are modelled as `Option String`
rather than `Option WallId`: `loadFromStorage` assigns the deserialized
JSON value to `selectedWallId` without validation, so the invariant that
the ids range over the four editable walls is a property of the reachable
states, proved below, not of the types. -/

structure WallModel where
  selectedWallId : Option String
  hoveredWallId : Option String
  wallConfigs : WallConfigs
deriving DecidableEq, Repr

/-- Field initializers of `WallModel`. -/
def WallModel.initial : WallModel :=
  { selectedWallId := none, hoveredWallId := none,
    wallConfigs :=
      { front := DEFAULT_TILE_CONFIG, back := DEFAULT_TILE_CONFIG,
        left := DEFAULT_TILE_CONFIG, right := DEFAULT_TILE_CONFIG } }

/-- `WallModel.saveSelectedWall`: writes `selectedWallId` (possibly
`null`) to the `SELECTED_WALL` key. -/
def WallModel.saveSelectedWall (m : WallModel) (st : Storage) : Storage :=
  { st with selectedWall := some m.selectedWallId }

/-- `WallModel.saveToStorage`: writes `wallConfigs` to the `WALLS` key. -/
def WallModel.save (m : WallModel) (st : Storage) : Storage :=
  { st with walls := some m.wallConfigs }

/-- `WallModel.selectWall`. -/
def WallModel.selectWall (m : WallModel) (st : Storage) (wallId : String) :
    WallModel × Storage :=
  let m' := { m with selectedWallId := some wallId }
  (m', m'.saveSelectedWall st)

/-- `WallModel.deselectWall`. -/
def WallModel.deselectWall (m : WallModel) (st : Storage) : WallModel × Storage :=
  let m' := { m with selectedWallId := none }
  (m', m'.saveSelectedWall st)

/-- `WallModel.setHoveredWall`: mutates `hoveredWallId` and performs no
storage write. -/
def WallModel.setHoveredWall (m : WallModel) (st : Storage) (wallId : Option String) :
    WallModel × Storage :=
  ({ m with hoveredWallId := wallId }, st)

/-- A `Partial<TileConfig>` patch: present fields override. -/
structure TileConfigPatch where
  imageUrl : Option (Option String) := none
  tileWidth : Option ℚ := none
  tileHeight : Option ℚ := none
  spacing : Option ℚ := none
  groutColor : Option String := none

/-- Object spread `{ ...config, ...patch }`. -/
def TileConfig.applyPatch (c : TileConfig) (p : TileConfigPatch) : TileConfig :=
  { imageUrl := p.imageUrl.getD c.imageUrl,
    tileWidth := p.tileWidth.getD c.tileWidth,
    tileHeight := p.tileHeight.getD c.tileHeight,
    spacing := p.spacing.getD c.spacing,
    groutColor := p.groutColor.getD c.groutColor }

/-- `WallModel.updateWallConfig`. -/
def WallModel.updateWallConfig (m : WallModel) (st : Storage) (wallId : WallId)
    (p : TileConfigPatch) : WallModel × Storage :=
  let m' := { m with wallConfigs := m.wallConfigs.set wallId ((m.wallConfigs.get wallId).applyPatch p) }
  (m', m'.save st)

/-- `WallModel.setTileImage`. -/
def WallModel.setTileImage (m : WallModel) (st : Storage) (wallId : WallId)
    (imageUrl : Option String) : WallModel × Storage :=
  m.updateWallConfig st wallId { imageUrl := some imageUrl }

/-- `WallModel.setTileSize`. -/
def WallModel.setTileSize (m : WallModel) (st : Storage) (wallId : WallId)
    (width height : ℚ) : WallModel × Storage :=
  m.updateWallConfig st wallId { tileWidth := some width, tileHeight := some height }

/-- `WallModel.setSpacing`. -/
def WallModel.setSpacing (m : WallModel) (st : Storage) (wallId : WallId)
    (spacing : ℚ) : WallModel × Storage :=
  m.updateWallConfig st wallId { spacing := some spacing }

/-- `WallModel.setGroutColor`. -/
def WallModel.setGroutColor (m : WallModel) (st : Storage) (wallId : WallId)
    (color : String) : WallModel × Storage :=
  m.updateWallConfig st wallId { groutColor := some color }

/-- `WallModel.loadFromStorage`: adopts stored wall configs when present,
and assigns the deserialized `SELECTED_WALL` value to `selectedWallId`
when it is not `null` (no validation). -/
def WallModel.loadFromStorage (m : WallModel) (st : Storage) : WallModel :=
  let m₁ :=
    match st.walls with
    | some cs => { m with wallConfigs := cs }
    | none => m
  match st.readSelectedWall with
  | some s => { m₁ with selectedWallId := some s }
  | none => m₁

/-! ## Raycast picking (src/lib/three.ts) -/

/-- `getWallIdFromIntersection` from `src/lib/three.ts`: reads
`intersection.object.userData?.wallId` (modelled as `Option String`:
`none` for an absent or non-string value) and returns it only when it is
one of the four editable wall ids. -/
def getWallIdFromIntersection (userData : Option String) : Option String :=
  match userData with
  | some wallId =>
      if wallId = "front" ∨ wallId = "back" ∨ wallId = "left" ∨ wallId = "right" then
        some wallId
      else none
  | none => none

/-! ## Perimeter indicator (src/lib/three.ts, final revision of
`createWallPerimeterLine` at lines 423-516; src/components/scene.ts) -/

/-- `dashLength = 0.15` (meters) from `createWallPerimeterLine`. -/
def dashLength : ℚ := 0.15

/-- `gapLength = 0.08` (meters) from `createWallPerimeterLine`. -/
def gapLength : ℚ := 0.08

/-- `segmentLength = dashLength + gapLength`. -/
def segmentLength : ℚ := dashLength + gapLength

/-- One edge loop of `createWallPerimeterLine`: starting at `-half` and
stepping by `segmentLength`, emit the dash `(startX, min (startX +
dashLength) half)` while `startX < half` and the dash has positive
extent.  The loop index `i < ⌈edgeLength / segmentLength⌉` becomes the
fuel; the source's `break` is the `half ≤ startX` early return. -/
def edgeDashSegments (half : ℚ) : ℕ → ℚ → List (ℚ × ℚ)
  | 0, _ => []
  | fuel + 1, startX =>
      if half ≤ startX then []
      else
        let endX := min (startX + dashLength) half
        let rest := edgeDashSegments half fuel (startX + segmentLength)
        if 0 < endX - startX then (startX, endX) :: rest else rest

/-- The dashes placed along one edge of length `edgeLength` by
`createWallPerimeterLine` (each of the four edges runs this same loop). -/
def edgeDashes (edgeLength : ℚ) : List (ℚ × ℚ) :=
  edgeDashSegments (edgeLength / 2) (⌈edgeLength / segmentLength⌉.toNat)
    (-(edgeLength / 2))

/-- The perimeter-indicator `Group` built for a wall: the dash meshes of
the four edges and the three.js `Object3D.visible` flag (`true` on a
fresh `Group`).  The `perimeterLength` field models
`group.userData.perimeterLength`. -/
structure PerimeterGroup where
  topDashes : List (ℚ × ℚ)
  bottomDashes : List (ℚ × ℚ)
  leftDashes : List (ℚ × ℚ)
  rightDashes : List (ℚ × ℚ)
  perimeterLength : ℚ
  visible : Bool
deriving DecidableEq, Repr

/-- `createWallPerimeterLine(wallId, position, rotation, size)` from
`src/lib/three.ts` (final revision): dashes for the top and bottom edges
of length `size.x` and the left and right edges of length `size.y`.
`perimeterLength` is modelled from the spec: the revision of this
function that stores `userData.perimeterLength` (read by the render loop)
is not in the snapshot; following the spec it is the length
`2 * (size.x + size.y)` of the closed rectangular path. -/
def createWallPerimeterLine (sizeX sizeY : ℚ) : PerimeterGroup :=
  { topDashes := edgeDashes sizeX,
    bottomDashes := edgeDashes sizeX,
    leftDashes := edgeDashes sizeY,
    rightDashes := edgeDashes sizeY,
    perimeterLength := 2 * (sizeX + sizeY),
    visible := true }

/-- `createPerimeterLineForWall` from `src/components/scene.ts`: builds
the group and hides it (`group.visible = false`). -/
def createPerimeterLineForWall (sizeX sizeY : ℚ) : PerimeterGroup :=
  { createWallPerimeterLine sizeX sizeY with visible := false }

/-- `updatePerimeterLine` from `src/components/scene.ts`: every perimeter
group becomes visible exactly when its wall id equals the selected id. -/
def updatePerimeterLine (selectedWallId : Option String)
    (lines : WallId → PerimeterGroup) : WallId → PerimeterGroup :=
  fun w => { lines w with visible := decide (some w.str = selectedWallId) }

/-- Floor-based remainder on `ℚ`.  Agrees with the JavaScript `%`
operator whenever the dividend is non-negative and the divisor positive,
which is how the render loop uses it. -/
def jsMod (a b : ℚ) : ℚ :=
  a - b * ⌊a / b⌋

/-- The per-frame dash-pattern offset computed in `animate()`
(`src/components/scene.ts`): `(time * speed) % perimeterLength` with
`speed = 0.5` meters per second and `time` in seconds. -/
def animationOffset (time perimLen : ℚ) : ℚ :=
  jsMod (time * 0.5) perimLen

/-- Modelled from the spec: the dash pattern drawn by
`updatePerimeterLineAnimation` (defined in a `src/lib/three.ts` revision
absent from the snapshot).  A point at arc position `s` of the closed
rectangular path is on a dash exactly when its position relative to the
phase offset `t`, reduced modulo the pattern period
`dashLength + gapLength`, falls within the first `dashLength` of the
period: dashes of length `dashLength` separated by gaps of length
`gapLength`, the whole pattern translated by `t`. -/
def onDash (t s : ℚ) : Prop :=
  jsMod (s - t) (dashLength + gapLength) < dashLength

/-! ## Room mesh builder (src/components/scene.ts, final revision of
`updateRoom`) -/

/-- Arguments of one `createWall` / `createPerimeterLineForWall` call:
wall id, center position, rotation (stored as multiples of π, so that the
literal values 0, π, ±π/2 of the source stay exact rationals) and plane
size. -/
structure WallSpec where
  id : String
  pos : ℚ × ℚ × ℚ
  rotOverPi : ℚ × ℚ × ℚ
  size : ℚ × ℚ
deriving DecidableEq, Repr

/-- The six `createWall` calls of `updateRoom` (final revision: the room
dimensions are read from the store and used directly as meters), in
source order.  The camera repositioning done by the same function does
not touch the surfaces and is not modelled. -/
def updateRoom (room : RoomModel) : List WallSpec :=
  let width := room.width
  let height := room.height
  let length := room.length
  let halfWidth := width / 2
  let halfHeight := height / 2
  let halfLength := length / 2
  [ { id := "front", pos := (0, 0, -halfLength), rotOverPi := (0, 0, 0),
      size := (width, height) },
    { id := "back", pos := (0, 0, halfLength), rotOverPi := (0, 1, 0),
      size := (width, height) },
    { id := "left", pos := (-halfWidth, 0, 0), rotOverPi := (0, 1/2, 0),
      size := (length, height) },
    { id := "right", pos := (halfWidth, 0, 0), rotOverPi := (0, -(1/2), 0),
      size := (length, height) },
    { id := "top", pos := (0, halfHeight, 0), rotOverPi := (-(1/2), 0, 0),
      size := (width, length) },
    { id := "bottom", pos := (0, -halfHeight, 0), rotOverPi := (1/2, 0, 0),
      size := (width, length) } ]

/-! ## Application-level state and events

The composition of the stores with the scene's event handlers
(src/components/scene.ts, src/ui).  Raw picking data reaching the
handlers is arbitrary; ids only enter the stores through
`getWallIdFromIntersection`, except for `loadFromStorage` which trusts
storage. -/

structure AppState where
  room : RoomModel
  wall : WallModel
  storage : Storage
deriving DecidableEq, Repr

/-- `RootStore` construction on a fresh browser profile: both model
constructors run `loadFromStorage` against empty storage. -/
def AppState.initial : AppState :=
  let p := RoomModel.initial.loadFromStorage Storage.empty
  { room := p.1, wall := WallModel.initial.loadFromStorage p.2, storage := p.2 }

def AppState.selectWallApp (s : AppState) (w : String) : AppState :=
  let p := s.wall.selectWall s.storage w
  { s with wall := p.1, storage := p.2 }

def AppState.deselectWallApp (s : AppState) : AppState :=
  let p := s.wall.deselectWall s.storage
  { s with wall := p.1, storage := p.2 }

def AppState.setHoveredWallApp (s : AppState) (w : Option String) : AppState :=
  let p := s.wall.setHoveredWall s.storage w
  { s with wall := p.1, storage := p.2 }

def AppState.updateWallConfigApp (s : AppState) (w : WallId) (p : TileConfigPatch) :
    AppState :=
  let q := s.wall.updateWallConfig s.storage w p
  { s with wall := q.1, storage := q.2 }

def AppState.setWidthApp (s : AppState) (w : ℚ) : AppState :=
  let p := s.room.setWidth s.storage w
  { s with room := p.1, storage := p.2 }

def AppState.setHeightApp (s : AppState) (h : ℚ) : AppState :=
  let p := s.room.setHeight s.storage h
  { s with room := p.1, storage := p.2 }

def AppState.setLengthApp (s : AppState) (l : ℚ) : AppState :=
  let p := s.room.setLength s.storage l
  { s with room := p.1, storage := p.2 }

def AppState.setDimensionsApp (s : AppState) (w h l : ℚ) : AppState :=
  let p := s.room.setDimensions s.storage w h l
  { s with room := p.1, storage := p.2 }

/-- `handleClick`: `hit` is `none` when the ray meets no editable wall,
otherwise the `userData.wallId` of the nearest intersection.  A wall is
selected only when `getWallIdFromIntersection` accepts the id. -/
def AppState.clickApp (s : AppState) (hit : Option (Option String)) : AppState :=
  match hit with
  | none => s
  | some userData =>
      match getWallIdFromIntersection userData with
      | some w => s.selectWallApp w
      | none => s

/-- `handleHover`: a hit with a valid id sets the hovered wall, a miss
clears it, a hit with an invalid id does nothing. -/
def AppState.hoverApp (s : AppState) (hit : Option (Option String)) : AppState :=
  match hit with
  | none => s.setHoveredWallApp none
  | some userData =>
      match getWallIdFromIntersection userData with
      | some w => s.setHoveredWallApp (some w)
      | none => s

/-- The `mouseleave` listener: clears the hovered wall. -/
def AppState.mouseLeaveApp (s : AppState) : AppState :=
  s.setHoveredWallApp none

/-- The explicit `loadFromStorage` calls in `src/main.tsx`: both models
reload from the current storage (the room model possibly migrating and
writing back). -/
def AppState.reloadApp (s : AppState) : AppState :=
  let p := s.room.loadFromStorage s.storage
  { room := p.1, wall := s.wall.loadFromStorage p.2, storage := p.2 }

/-- The states the running application can be in: the initial state, and
closure under every store-mutating entry point. -/
inductive Reachable : AppState → Prop where
  | init : Reachable .initial
  | click (s : AppState) (hit : Option (Option String)) :
      Reachable s → Reachable (s.clickApp hit)
  | hover (s : AppState) (hit : Option (Option String)) :
      Reachable s → Reachable (s.hoverApp hit)
  | mouseLeave (s : AppState) : Reachable s → Reachable s.mouseLeaveApp
  | deselect (s : AppState) : Reachable s → Reachable s.deselectWallApp
  | reload (s : AppState) : Reachable s → Reachable s.reloadApp
  | wallConfig (s : AppState) (w : WallId) (p : TileConfigPatch) :
      Reachable s → Reachable (s.updateWallConfigApp w p)
  | width (s : AppState) (w : ℚ) : Reachable s → Reachable (s.setWidthApp w)
  | height (s : AppState) (h : ℚ) : Reachable s → Reachable (s.setHeightApp h)
  | length (s : AppState) (l : ℚ) : Reachable s → Reachable (s.setLengthApp l)
  | dims (s : AppState) (w h l : ℚ) :
      Reachable s → Reachable (s.setDimensionsApp w h l)

/-- An id string is one of the four editable wall ids. -/
def ValidWallId (s : String) : Prop :=
  s = "front" ∨ s = "back" ∨ s = "left" ∨ s = "right"

/-- An optional id is absent or valid. -/
def ValidOptId (o : Option String) : Prop :=
  ∀ s, o = some s → ValidWallId s

/-! ## Orbit look controls (src/lib/three.ts, `createOrbitControls`) -/

/-- The mutable state captured by the `createOrbitControls` closures plus
the camera position it writes. -/
structure OrbitState where
  isDragging : Bool
  prevX : ℝ
  prevY : ℝ
  rotationX : ℝ
  rotationY : ℝ
  camX : ℝ
  camY : ℝ
  camZ : ℝ

/-- State set up by `createOrbitControls` before any event: not dragging,
rotations zero, camera at the origin. -/
noncomputable def OrbitState.initial : OrbitState :=
  { isDragging := false, prevX := 0, prevY := 0, rotationX := 0,
    rotationY := 0, camX := 0, camY := 0, camZ := 0 }

/-- `onMouseDown`. -/
noncomputable def OrbitState.mouseDown (s : OrbitState) (x y : ℝ) : OrbitState :=
  { s with isDragging := true, prevX := x, prevY := y }

/-- `onMouseMove`: an early return when not dragging; otherwise the drag
deltas rotate the view, the pitch is clamped to `[-π/2, π/2]`
(`Math.max(-Math.PI / 2, Math.min(Math.PI / 2, rotationX))`), and the
camera is reset to the origin (`camera.lookAt` only reorients it). -/
noncomputable def OrbitState.mouseMove (s : OrbitState) (x y : ℝ) : OrbitState :=
  if s.isDragging = false then s
  else
    let deltaX := x - s.prevX
    let deltaY := y - s.prevY
    let rY := s.rotationY - deltaX * 0.005
    let rX := max (-(Real.pi / 2)) (min (Real.pi / 2) (s.rotationX - deltaY * 0.005))
    { isDragging := s.isDragging, prevX := x, prevY := y, rotationX := rX,
      rotationY := rY, camX := 0, camY := 0, camZ := 0 }

/-- `onMouseUp` (also the `mouseleave` handler). -/
noncomputable def OrbitState.mouseUp (s : OrbitState) : OrbitState :=
  { s with isDragging := false }

/-! ## Helper lemmas -/

set_option maxRecDepth 4096 in
/-- Every padded hex pair of a byte has two characters, both hexadecimal
digits, and parses back to the byte. -/
lemma hexComponent_key : ∀ n : ℕ, n < 256 →
    (padHexPair (natToHexString n)).length = 2 ∧
    (∀ c ∈ padHexPair (natToHexString n), isHexDigit c = true) ∧
    parseHexPairList (padHexPair (natToHexString n)) = n := by
  decide

lemma jsRound_natCast (n : ℕ) : jsRound (n : ℚ) = n := by
  unfold jsRound
  refine Int.floor_eq_iff.mpr ⟨?_, ?_⟩ <;> push_cast <;> linarith

lemma clamp_natCast (n : ℕ) (h : n ≤ 255) : clamp (n : ℚ) 0 255 = n := by
  unfold clamp
  rw [max_eq_left (by positivity), min_eq_left (by exact_mod_cast h)]

lemma toHexComponent_natCast (n : ℕ) (h : n ≤ 255) :
    toHexComponent (n : ℚ) = padHexPair (natToHexString n) := by
  unfold toHexComponent
  rw [clamp_natCast n h, jsRound_natCast, Int.toNat_natCast]

/-- The rounded clamped component is always a byte. -/
lemma jsRound_clamp_mem (q : ℚ) :
    0 ≤ jsRound (clamp q 0 255) ∧ jsRound (clamp q 0 255) ≤ 255 := by
  have h0 : (0 : ℚ) ≤ clamp q 0 255 := le_min (le_max_right q 0) (by norm_num)
  have h1 : clamp q 0 255 ≤ 255 := min_le_right _ _
  constructor
  · exact Int.floor_nonneg.mpr (by linarith)
  · have : jsRound (clamp q 0 255) < 256 := Int.floor_lt.mpr (by push_cast; linarith)
    omega

lemma parseHexBody_none_iff (body : List Char) :
    parseHexBody body = none ↔
      ¬(body.length = 6 ∧ ∀ c ∈ body, isHexDigit c = true) := by
  rcases body with _ | ⟨c₁, body⟩
  · rw [show parseHexBody [] = none from rfl]
    simp
  rcases body with _ | ⟨c₂, body⟩
  · rw [show parseHexBody [c₁] = none from rfl]
    simp
  rcases body with _ | ⟨c₃, body⟩
  · rw [show parseHexBody [c₁, c₂] = none from rfl]
    simp
  rcases body with _ | ⟨c₄, body⟩
  · rw [show parseHexBody [c₁, c₂, c₃] = none from rfl]
    simp
  rcases body with _ | ⟨c₅, body⟩
  · rw [show parseHexBody [c₁, c₂, c₃, c₄] = none from rfl]
    simp
  rcases body with _ | ⟨c₆, body⟩
  · rw [show parseHexBody [c₁, c₂, c₃, c₄, c₅] = none from rfl]
    simp
  rcases body with _ | ⟨c₇, body⟩
  · show (if isHexDigit c₁ ∧ isHexDigit c₂ ∧ isHexDigit c₃ ∧ isHexDigit c₄ ∧
        isHexDigit c₅ ∧ isHexDigit c₆ then
          some (⟨parseHexPair c₁ c₂, parseHexPair c₃ c₄, parseHexPair c₅ c₆⟩ : RGB)
        else none) = none ↔ _
    by_cases h : (isHexDigit c₁ ∧ isHexDigit c₂ ∧ isHexDigit c₃ ∧ isHexDigit c₄ ∧
        isHexDigit c₅ ∧ isHexDigit c₆ : Prop)
    · rw [if_pos h]
      constructor
      · intro hx
        exact absurd hx (Option.some_ne_none _)
      · intro hx
        exfalso
        apply hx
        refine ⟨rfl, fun c hm => ?_⟩
        simp only [List.mem_cons, List.not_mem_nil, or_false] at hm
        obtain ⟨h₁, h₂, h₃, h₄, h₅, h₆⟩ := h
        rcases hm with rfl | rfl | rfl | rfl | rfl | rfl
        exacts [h₁, h₂, h₃, h₄, h₅, h₆]
    · rw [if_neg h]
      refine ⟨fun _ hp => ?_, fun _ => rfl⟩
      obtain ⟨-, hall⟩ := hp
      exact h ⟨hall c₁ (by simp), hall c₂ (by simp), hall c₃ (by simp),
        hall c₄ (by simp), hall c₅ (by simp), hall c₆ (by simp)⟩
  · refine ⟨fun _ hp => ?_, fun _ => rfl⟩
    have h6 := hp.1
    simp only [List.length_cons] at h6
    omega

lemma stripHash_hash (rest : List Char) : stripHash ('#' :: rest) = rest := by
  simp [stripHash]

lemma stripHash_cons_ne (c : Char) (rest : List Char) (h : ¬c = '#') :
    stripHash (c :: rest) = c :: rest := by
  simp [stripHash, h]

/-! ## C9 -/

/-- C9: `calculateTileCount` is total: it returns 0 whenever
`tileSize ≤ 0` or `spacing < 0`, and otherwise returns
`⌊roomDimension / (tileSize + spacing)⌋`; under the guards the divisor
`tileSize + spacing` is strictly positive, and for every non-negative
`roomDimension` the result is a non-negative integer. -/
theorem calculateTileCount_total (roomDimension tileSize spacing : ℚ) :
    ((tileSize ≤ 0 ∨ spacing < 0) →
        calculateTileCount roomDimension tileSize spacing = 0)
    ∧ (0 < tileSize → 0 ≤ spacing →
        0 < tileSize + spacing ∧
        calculateTileCount roomDimension tileSize spacing =
          ((⌊roomDimension / (tileSize + spacing)⌋ : ℤ) : ℚ))
    ∧ (0 ≤ roomDimension → 0 < tileSize → 0 ≤ spacing →
        ∃ n : ℕ, calculateTileCount roomDimension tileSize spacing = (n : ℚ)) := by
  refine ⟨fun h => ?_, fun ht hs => ?_, fun hr ht hs => ?_⟩
  · rw [calculateTileCount, if_pos h]
  · have hpos : 0 < tileSize + spacing := by linarith
    refine ⟨hpos, ?_⟩
    rw [calculateTileCount, if_neg (by push_neg; exact ⟨ht, hs⟩),
      if_neg (by positivity)]
  · have hpos : 0 < tileSize + spacing := by linarith
    have hfl : 0 ≤ ⌊roomDimension / (tileSize + spacing)⌋ :=
      Int.floor_nonneg.mpr (by positivity)
    refine ⟨⌊roomDimension / (tileSize + spacing)⌋.toNat, ?_⟩
    rw [calculateTileCount, if_neg (by push_neg; exact ⟨ht, hs⟩),
      if_neg (by positivity)]
    exact_mod_cast congrArg (fun z : ℤ => (z : ℚ)) (Int.toNat_of_nonneg hfl).symm

/-- Witness for C9 at `roomDimension = 10`, `tileSize = 3`, `spacing = 0`. -/
theorem calculateTileCount_total_witness :
    (0 : ℚ) < 3 ∧ (0 : ℚ) ≤ 0 ∧
      (0 < (3 : ℚ) + 0 ∧
        calculateTileCount 10 3 0 = ((⌊(10 : ℚ) / (3 + 0)⌋ : ℤ) : ℚ)) :=
  ⟨by decide, by decide, (calculateTileCount_total 10 3 0).2.1 (by decide) (by decide)⟩

/-! ## C10 -/

/-- C10: for all integer components `r, g, b ≤ 255`,
`hexToRgb (rgbToHex r g b)` returns exactly `{r, g, b}`; `rgbToHex`
clamps each component into `[0, 255]` and rounds it, always producing `#`
followed by six hexadecimal digits; and `hexToRgb` returns `null` exactly
when its input is not six hexadecimal digits with an optional leading
`#`. -/
theorem hexToRgb_rgbToHex_roundTrip :
    (∀ r g b : ℕ, r ≤ 255 → g ≤ 255 → b ≤ 255 →
        hexToRgb (rgbToHex r g b) = some ⟨r, g, b⟩)
    ∧ (∀ q : ℚ, 0 ≤ jsRound (clamp q 0 255) ∧ jsRound (clamp q 0 255) ≤ 255)
    ∧ (∀ r g b : ℚ, ∃ c₁ c₂ c₃ c₄ c₅ c₆ : Char,
        (rgbToHex r g b).data = ['#', c₁, c₂, c₃, c₄, c₅, c₆] ∧
        ∀ c ∈ [c₁, c₂, c₃, c₄, c₅, c₆], isHexDigit c = true)
    ∧ (∀ s : String, hexToRgb s = none ↔ ¬IsSixHexWithOptionalHash s) := by
  have comp : ∀ q : ℚ, ∃ a₁ a₂ : Char,
      toHexComponent q = [a₁, a₂] ∧ isHexDigit a₁ = true ∧ isHexDigit a₂ = true := by
    intro q
    have hb := jsRound_clamp_mem q
    have hlt : (jsRound (clamp q 0 255)).toNat < 256 := by omega
    obtain ⟨hlen, hall, -⟩ := hexComponent_key _ hlt
    obtain ⟨a₁, a₂, ha⟩ := List.length_eq_two.mp hlen
    have heq : toHexComponent q = [a₁, a₂] := by rw [toHexComponent, ha]
    exact ⟨a₁, a₂, heq, hall a₁ (by rw [ha]; simp), hall a₂ (by rw [ha]; simp)⟩
  refine ⟨fun r g b hr hg hb => ?_, jsRound_clamp_mem, fun r g b => ?_, fun s => ?_⟩
  · obtain ⟨hrl, hrall, hrparse⟩ := hexComponent_key r (by omega)
    obtain ⟨hgl, hgall, hgparse⟩ := hexComponent_key g (by omega)
    obtain ⟨hbl, hball, hbparse⟩ := hexComponent_key b (by omega)
    obtain ⟨a₁, a₂, ha⟩ := List.length_eq_two.mp hrl
    obtain ⟨b₁, b₂, hbb⟩ := List.length_eq_two.mp hgl
    obtain ⟨d₁, d₂, hd⟩ := List.length_eq_two.mp hbl
    have hdata : (rgbToHex r g b).data = '#' :: (a₁ :: a₂ :: b₁ :: b₂ :: d₁ :: d₂ :: []) := by
      show ('#' :: (toHexComponent r ++ toHexComponent g ++ toHexComponent b)) = _
      rw [toHexComponent_natCast r hr, toHexComponent_natCast g hg,
        toHexComponent_natCast b hb, ha, hbb, hd]
      rfl
    rw [hexToRgb, hdata, stripHash_hash, parseHexBody]
    rw [if_pos ⟨hrall a₁ (by rw [ha]; simp), hrall a₂ (by rw [ha]; simp),
      hgall b₁ (by rw [hbb]; simp), hgall b₂ (by rw [hbb]; simp),
      hball d₁ (by rw [hd]; simp), hball d₂ (by rw [hd]; simp)⟩]
    have h₁ : parseHexPair a₁ a₂ = r := by
      have := hrparse
      rw [ha] at this
      exact this
    have h₂ : parseHexPair b₁ b₂ = g := by
      have := hgparse
      rw [hbb] at this
      exact this
    have h₃ : parseHexPair d₁ d₂ = b := by
      have := hbparse
      rw [hd] at this
      exact this
    rw [h₁, h₂, h₃]
  · obtain ⟨a₁, a₂, ha, ha₁, ha₂⟩ := comp r
    obtain ⟨b₁, b₂, hbb, hb₁, hb₂⟩ := comp g
    obtain ⟨d₁, d₂, hd, hd₁, hd₂⟩ := comp b
    refine ⟨a₁, a₂, b₁, b₂, d₁, d₂, ?_, ?_⟩
    · show ('#' :: (toHexComponent r ++ toHexComponent g ++ toHexComponent b)) = _
      rw [ha, hbb, hd]
      rfl
    · intro c hm
      simp only [List.mem_cons, List.not_mem_nil, or_false] at hm
      rcases hm with rfl | rfl | rfl | rfl | rfl | rfl
      exacts [ha₁, ha₂, hb₁, hb₂, hd₁, hd₂]
  · rw [hexToRgb]
    rcases hcs : s.data with _ | ⟨c, rest⟩
    · show parseHexBody (stripHash []) = none ↔ _
      rw [show stripHash [] = [] from rfl, parseHexBody_none_iff]
      apply not_congr
      constructor
      · rintro ⟨h6, -⟩
        simp at h6
      · rintro ⟨body, hb | hb, h6, -⟩
        · rw [hcs] at hb
          subst hb
          simp at h6
        · rw [hcs] at hb
          exact absurd hb (by simp)
    · by_cases hc : c = '#'
      · subst hc
        rw [stripHash_hash, parseHexBody_none_iff]
        apply not_congr
        constructor
        · rintro ⟨h6, hall⟩
          exact ⟨rest, Or.inr hcs, h6, hall⟩
        · rintro ⟨body, hb | hb, h6, hall⟩
          · rw [hcs] at hb
            subst hb
            have := hall '#' (by simp)
            simp [isHexDigit] at this
          · rw [hcs] at hb
            obtain rfl : rest = body := by injection hb
            exact ⟨h6, hall⟩
      · rw [stripHash_cons_ne c rest hc, parseHexBody_none_iff]
        apply not_congr
        constructor
        · rintro ⟨h6, hall⟩
          exact ⟨c :: rest, Or.inl hcs, h6, hall⟩
        · rintro ⟨body, hb | hb, h6, hall⟩
          · rw [hcs] at hb
            subst hb
            exact ⟨h6, hall⟩
          · rw [hcs] at hb
            exact absurd (by injection hb) hc

/-- Witness for C10 at `(r, g, b) = (18, 52, 86)`. -/
theorem hexToRgb_rgbToHex_roundTrip_witness :
    18 ≤ 255 ∧ 52 ≤ 255 ∧ 86 ≤ 255 ∧
      hexToRgb (rgbToHex 18 52 86) = some ⟨18, 52, 86⟩ :=
  ⟨by decide, by decide, by decide,
    hexToRgb_rgbToHex_roundTrip.1 18 52 86 (by decide) (by decide) (by decide)⟩

/-! ## C3 -/

/-- C3: `RoomModel.loadFromStorage` treats stored dimensions greater than
100 as legacy millimeters: when stored data exists and at least one of
width, height, length exceeds 100, all three dimensions are divided by
1000 and the converted values are immediately saved back to storage
(other keys untouched); otherwise the stored values are adopted
unchanged; when no stored data exists the current default values are
kept. -/
theorem roomModel_migration (r : RoomModel) (st : Storage) :
    (st.room = none → r.loadFromStorage st = (r, st))
    ∧ (∀ stored : RoomDimensions, st.room = some stored →
        ((100 < stored.width ∨ 100 < stored.height ∨ 100 < stored.length) →
          (r.loadFromStorage st).1 =
            ⟨stored.width / 1000, stored.height / 1000, stored.length / 1000⟩ ∧
          (r.loadFromStorage st).2.room =
            some ⟨stored.width / 1000, stored.height / 1000, stored.length / 1000⟩ ∧
          (r.loadFromStorage st).2.walls = st.walls ∧
          (r.loadFromStorage st).2.selectedWall = st.selectedWall)
        ∧ (¬(100 < stored.width ∨ 100 < stored.height ∨ 100 < stored.length) →
          (r.loadFromStorage st).1 = ⟨stored.width, stored.height, stored.length⟩ ∧
          (r.loadFromStorage st).2 = st)) := by
  refine ⟨fun hn => ?_, fun stored hsome => ⟨fun hc => ?_, fun hc => ?_⟩⟩
  · simp only [RoomModel.loadFromStorage, hn]
  · simp only [RoomModel.loadFromStorage, hsome, if_pos hc]
    refine ⟨?_, ?_, ?_, ?_⟩ <;> trivial
  · simp only [RoomModel.loadFromStorage, hsome, if_neg hc]
    refine ⟨?_, ?_⟩ <;> trivial

/-- Witness for C3 on legacy millimeter data `{3000, 2500, 4000}`. -/
theorem roomModel_migration_witness :
    ({ room := some ⟨3000, 2500, 4000⟩, walls := none,
        selectedWall := none } : Storage).room = some ⟨3000, 2500, 4000⟩ ∧
    (100 < (3000 : ℚ) ∨ 100 < (2500 : ℚ) ∨ 100 < (4000 : ℚ)) ∧
    ((RoomModel.initial.loadFromStorage
        { room := some ⟨3000, 2500, 4000⟩, walls := none, selectedWall := none }).1 =
      ⟨3000 / 1000, 2500 / 1000, 4000 / 1000⟩ ∧
     (RoomModel.initial.loadFromStorage
        { room := some ⟨3000, 2500, 4000⟩, walls := none, selectedWall := none }).2.room =
      some ⟨3000 / 1000, 2500 / 1000, 4000 / 1000⟩ ∧
     (RoomModel.initial.loadFromStorage
        { room := some ⟨3000, 2500, 4000⟩, walls := none, selectedWall := none }).2.walls =
      none ∧
     (RoomModel.initial.loadFromStorage
        { room := some ⟨3000, 2500, 4000⟩, walls := none, selectedWall := none }).2.selectedWall =
      none) :=
  ⟨rfl, by decide,
    ((roomModel_migration RoomModel.initial
      { room := some ⟨3000, 2500, 4000⟩, walls := none, selectedWall := none }).2
      ⟨3000, 2500, 4000⟩ rfl).1 (by decide)⟩

/-! ## C2 -/

/-- C2: for every room state with positive dimensions (meters),
`updateRoom` derives exactly the 6 rectangular surfaces of sizes equal to
the stored dimensions: front/back walls of size width x height at
z = ∓length/2, left/right walls of size length x height at x = ∓width/2,
and ceiling/floor of size width x length at y = ±height/2; each surface
has positive extent. -/
theorem updateRoom_six_surfaces (r : RoomModel)
    (hw : 0 < r.width) (hh : 0 < r.height) (hl : 0 < r.length) :
    updateRoom r =
      [ ⟨"front", (0, 0, -(r.length / 2)), (0, 0, 0), (r.width, r.height)⟩,
        ⟨"back", (0, 0, r.length / 2), (0, 1, 0), (r.width, r.height)⟩,
        ⟨"left", (-(r.width / 2), 0, 0), (0, 1/2, 0), (r.length, r.height)⟩,
        ⟨"right", (r.width / 2, 0, 0), (0, -(1/2), 0), (r.length, r.height)⟩,
        ⟨"top", (0, r.height / 2, 0), (-(1/2), 0, 0), (r.width, r.length)⟩,
        ⟨"bottom", (0, -(r.height / 2), 0), (1/2, 0, 0), (r.width, r.length)⟩ ]
    ∧ (updateRoom r).length = 6
    ∧ ∀ ws ∈ updateRoom r, 0 < ws.size.1 ∧ 0 < ws.size.2 := by
  refine ⟨rfl, rfl, fun ws hws => ?_⟩
  simp only [updateRoom, List.mem_cons, List.not_mem_nil, or_false] at hws
  rcases hws with rfl | rfl | rfl | rfl | rfl | rfl
  exacts [⟨hw, hh⟩, ⟨hw, hh⟩, ⟨hl, hh⟩, ⟨hl, hh⟩, ⟨hw, hl⟩, ⟨hw, hl⟩]

/-- Witness for C2 at a `3 x 2 x 4` meter room. -/
theorem updateRoom_six_surfaces_witness :
    0 < (⟨3, 2, 4⟩ : RoomModel).width ∧ 0 < (⟨3, 2, 4⟩ : RoomModel).height ∧
    0 < (⟨3, 2, 4⟩ : RoomModel).length ∧
    (updateRoom ⟨3, 2, 4⟩).length = 6 :=
  ⟨by decide, by decide, by decide,
    (updateRoom_six_surfaces ⟨3, 2, 4⟩ (by decide) (by decide) (by decide)).2.1⟩

/-! ## C4 (corrected) -/

/-- C4, counterexample: `setHoveredWall` is a UI-driven setter mutation
of the wall store, yet it changes the store state without writing
anything to local storage — the claim's universal persistence fails for
it. -/
theorem setHoveredWall_not_persisted :
    (AppState.initial.setHoveredWallApp (some "front")).wall ≠ AppState.initial.wall ∧
    (AppState.initial.setHoveredWallApp (some "front")).storage = AppState.initial.storage := by
  exact ⟨by decide, rfl⟩

/-- C4, amended: after every UI-driven setter mutation except
`setHoveredWall` (`setWidth`, `setHeight`, `setLength`, `setDimensions`,
`selectWall`, `deselectWall`, `updateWallConfig`, `setTileImage`,
`setTileSize`, `setSpacing`, `setGroutColor`), the mutated entity's state
is persisted to its local-storage key as part of that mutation;
`setHoveredWall` performs no storage write at all. -/
theorem ui_setters_persist (r : RoomModel) (m : WallModel) (st : Storage)
    (w h l sp : ℚ) (ws : String) (wid : WallId) (img : Option String)
    (color : String) (hov : Option String) (p : TileConfigPatch) :
    ((r.setWidth st w).2.room =
      some ⟨(r.setWidth st w).1.width, (r.setWidth st w).1.height,
        (r.setWidth st w).1.length⟩)
    ∧ ((r.setHeight st h).2.room =
      some ⟨(r.setHeight st h).1.width, (r.setHeight st h).1.height,
        (r.setHeight st h).1.length⟩)
    ∧ ((r.setLength st l).2.room =
      some ⟨(r.setLength st l).1.width, (r.setLength st l).1.height,
        (r.setLength st l).1.length⟩)
    ∧ ((r.setDimensions st w h l).2.room =
      some ⟨(r.setDimensions st w h l).1.width, (r.setDimensions st w h l).1.height,
        (r.setDimensions st w h l).1.length⟩)
    ∧ ((m.selectWall st ws).2.selectedWall = some (m.selectWall st ws).1.selectedWallId)
    ∧ ((m.deselectWall st).2.selectedWall = some (m.deselectWall st).1.selectedWallId)
    ∧ ((m.updateWallConfig st wid p).2.walls =
      some (m.updateWallConfig st wid p).1.wallConfigs)
    ∧ ((m.setTileImage st wid img).2.walls =
      some (m.setTileImage st wid img).1.wallConfigs)
    ∧ ((m.setTileSize st wid w h).2.walls =
      some (m.setTileSize st wid w h).1.wallConfigs)
    ∧ ((m.setSpacing st wid sp).2.walls = some (m.setSpacing st wid sp).1.wallConfigs)
    ∧ ((m.setGroutColor st wid color).2.walls =
      some (m.setGroutColor st wid color).1.wallConfigs)
    ∧ ((m.setHoveredWall st hov).2 = st) :=
  ⟨rfl, rfl, rfl, rfl, rfl, rfl, rfl, rfl, rfl, rfl, rfl, rfl⟩

/-! ## C6 -/

/-- C6: selection and hover are mutually independent: `selectWall` and
`deselectWall` leave `hoveredWallId` and `wallConfigs` unchanged,
`setHoveredWall` leaves `selectedWallId` and `wallConfigs` unchanged, and
each of the two ids holds at most one wall id at a time. -/
theorem selection_hover_independent (m : WallModel) (st : Storage) (w : String)
    (o : Option String) :
    ((m.selectWall st w).1.hoveredWallId = m.hoveredWallId ∧
      (m.selectWall st w).1.wallConfigs = m.wallConfigs)
    ∧ ((m.deselectWall st).1.hoveredWallId = m.hoveredWallId ∧
      (m.deselectWall st).1.wallConfigs = m.wallConfigs)
    ∧ ((m.setHoveredWall st o).1.selectedWallId = m.selectedWallId ∧
      (m.setHoveredWall st o).1.wallConfigs = m.wallConfigs)
    ∧ (∀ a b, m.selectedWallId = some a → m.selectedWallId = some b → a = b)
    ∧ (∀ a b, m.hoveredWallId = some a → m.hoveredWallId = some b → a = b) := by
  refine ⟨⟨rfl, rfl⟩, ⟨rfl, rfl⟩, ⟨rfl, rfl⟩,
    fun a b ha hb => ?_, fun a b ha hb => ?_⟩
  · exact Option.some.inj (ha.symm.trans hb)
  · exact Option.some.inj (ha.symm.trans hb)

/-- Witness for C6: frame condition and at-most-one selection at a
concrete store. -/
theorem selection_hover_independent_witness :
    ((WallModel.initial.selectWall Storage.empty "front").1.hoveredWallId =
      WallModel.initial.hoveredWallId) ∧
    ((WallModel.initial.selectWall Storage.empty "front").1.selectedWallId =
      some "front") ∧
    "front" = "front" :=
  ⟨(selection_hover_independent WallModel.initial Storage.empty "front" none).1.1,
    rfl,
    (selection_hover_independent (WallModel.initial.selectWall Storage.empty "front").1
      Storage.empty "back" none).2.2.2.1 "front" "front" rfl rfl⟩

/-! ## C7 -/

/-- C7: after `updatePerimeterLine`, the perimeter group of wall `w` is
visible exactly when `w` is the selected wall; when nothing is selected
every group is hidden; and every freshly created perimeter group starts
hidden. -/
theorem perimeterLine_visibility (sel : Option String) (lines : WallId → PerimeterGroup)
    (w : WallId) (sx sy : ℚ) :
    ((updatePerimeterLine sel lines w).visible = true ↔ sel = some w.str)
    ∧ (sel = none → (updatePerimeterLine sel lines w).visible = false)
    ∧ (createPerimeterLineForWall sx sy).visible = false := by
  refine ⟨⟨fun hv => ?_, fun hsel => ?_⟩, fun hsel => ?_, rfl⟩
  · exact (of_decide_eq_true hv).symm
  · exact decide_eq_true hsel.symm
  · subst hsel
    rfl

/-- Witness for C7: with no selection, the front wall's group is hidden. -/
theorem perimeterLine_visibility_witness :
    ((none : Option String) = none) ∧
    (updatePerimeterLine none (fun _ => createPerimeterLineForWall 3 (5/2))
      WallId.front).visible = false :=
  ⟨rfl, (perimeterLine_visibility none (fun _ => createPerimeterLineForWall 3 (5/2))
    WallId.front 3 (5/2)).2.1 rfl⟩

/-! ## C5 -/

lemma getWallIdFromIntersection_valid (ud : Option String) (w : String)
    (h : getWallIdFromIntersection ud = some w) : ValidWallId w := by
  rcases ud with _ | s
  · exact absurd h (by simp [getWallIdFromIntersection])
  · by_cases hc : s = "front" ∨ s = "back" ∨ s = "left" ∨ s = "right"
    · rw [getWallIdFromIntersection, if_pos hc] at h
      obtain rfl := Option.some.inj h
      exact hc
    · rw [getWallIdFromIntersection, if_neg hc] at h
      exact absurd h (by simp)

/-- The inductive invariant: the two ids of the wall store and the
`SELECTED_WALL` storage cell only ever hold editable wall ids. -/
def StateInv (s : AppState) : Prop :=
  ValidOptId s.wall.selectedWallId ∧ ValidOptId s.wall.hoveredWallId ∧
    ∀ o, s.storage.selectedWall = some o → ValidOptId o

lemma stateInv_initial : StateInv AppState.initial := by
  refine ⟨fun x hx => ?_, fun x hx => ?_, fun o ho => ?_⟩
  · rw [show AppState.initial.wall.selectedWallId = none from rfl] at hx
    cases hx
  · rw [show AppState.initial.wall.hoveredWallId = none from rfl] at hx
    cases hx
  · rw [show AppState.initial.storage.selectedWall = none from rfl] at ho
    cases ho

lemma stateInv_selectWallApp (s : AppState) (w : String) (hw : ValidWallId w)
    (ih : StateInv s) : StateInv (s.selectWallApp w) := by
  obtain ⟨-, h2, -⟩ := ih
  refine ⟨fun x hx => ?_, h2, fun o ho => ?_⟩
  · rw [show (s.selectWallApp w).wall.selectedWallId = some w from rfl] at hx
    obtain rfl := Option.some.inj hx
    exact hw
  · rw [show (s.selectWallApp w).storage.selectedWall = some (some w) from rfl] at ho
    obtain rfl := Option.some.inj ho
    intro x hx
    obtain rfl := Option.some.inj hx
    exact hw

lemma roomLoad_preserves_cells (r : RoomModel) (st : Storage) :
    (r.loadFromStorage st).2.walls = st.walls ∧
    (r.loadFromStorage st).2.selectedWall = st.selectedWall := by
  rcases hrm : st.room with _ | stored
  · simp only [RoomModel.loadFromStorage, hrm]
    refine ⟨?_, ?_⟩ <;> trivial
  · simp only [RoomModel.loadFromStorage, hrm]
    split
    · refine ⟨?_, ?_⟩ <;> trivial
    · refine ⟨?_, ?_⟩ <;> trivial

lemma wallLoad_hovered (m : WallModel) (st : Storage) :
    (m.loadFromStorage st).hoveredWallId = m.hoveredWallId := by
  simp only [WallModel.loadFromStorage]
  rcases hsel : st.readSelectedWall with _ | w <;>
    rcases hW : st.walls with _ | cs <;>
    simp only [hsel, hW]

lemma stateInv_preserved : ∀ s, Reachable s → StateInv s := by
  intro s h
  induction h with
  | init => exact stateInv_initial
  | click s hit hr ih =>
      rcases hit with _ | ud
      · exact ih
      · rcases hid : getWallIdFromIntersection ud with _ | w
        · simp only [AppState.clickApp, hid]
          exact ih
        · simp only [AppState.clickApp, hid]
          exact stateInv_selectWallApp s w (getWallIdFromIntersection_valid ud w hid) ih
      | hover s hit hr ih =>
      rcases hit with _ | ud
      · refine ⟨ih.1, fun x hx => ?_, ih.2.2⟩
        rw [show (AppState.hoverApp s none).wall.hoveredWallId = none from rfl] at hx
        cases hx
      · rcases hid : getWallIdFromIntersection ud with _ | w
        · simp only [AppState.hoverApp, hid]
          exact ih
        · simp only [AppState.hoverApp, hid]
          refine ⟨ih.1, fun x hx => ?_, ih.2.2⟩
          rw [show (s.setHoveredWallApp (some w)).wall.hoveredWallId = some w from rfl] at hx
          obtain rfl := Option.some.inj hx
          exact getWallIdFromIntersection_valid ud w hid
  | mouseLeave s hr ih =>
      refine ⟨ih.1, fun x hx => ?_, ih.2.2⟩
      rw [show s.mouseLeaveApp.wall.hoveredWallId = none from rfl] at hx
      cases hx
  | deselect s hr ih =>
      refine ⟨fun x hx => ?_, ih.2.1, fun o ho => ?_⟩
      · rw [show s.deselectWallApp.wall.selectedWallId = none from rfl] at hx
        cases hx
      · rw [show s.deselectWallApp.storage.selectedWall = some none from rfl] at ho
        obtain rfl := Option.some.inj ho
        intro x hx
        cases hx
  | reload s hr ih =>
      obtain ⟨h1, h2, h3⟩ := ih
      have hcells := roomLoad_preserves_cells s.room s.storage
      refine ⟨?_, ?_, fun o ho => ?_⟩
      · show ValidOptId (s.wall.loadFromStorage (s.room.loadFromStorage s.storage).2).selectedWallId
        rcases hsel : (s.room.loadFromStorage s.storage).2.readSelectedWall with _ | w
        · have heq : (s.wall.loadFromStorage (s.room.loadFromStorage s.storage).2).selectedWallId =
              s.wall.selectedWallId := by
            simp only [WallModel.loadFromStorage, hsel]
            rcases hW : (s.room.loadFromStorage s.storage).2.walls with _ | cs <;>
              simp only [hW]
          rw [heq]
          exact h1
        · have hcell : s.storage.selectedWall = some (some w) := by
            have hb := hsel
            rw [Storage.readSelectedWall, hcells.2] at hb
            rcases hc : s.storage.selectedWall with _ | o
            · rw [hc] at hb
              exact Option.noConfusion hb
            · rw [hc] at hb
              have hb' : o = some w := hb
              rw [hb']
          have hvalid : ValidWallId w := h3 (some w) hcell w rfl
          have heq : (s.wall.loadFromStorage (s.room.loadFromStorage s.storage).2).selectedWallId =
              some w := by
            simp only [WallModel.loadFromStorage, hsel]
          rw [heq]
          intro x hx
          obtain rfl := Option.some.inj hx
          exact hvalid
      · show ValidOptId (s.wall.loadFromStorage (s.room.loadFromStorage s.storage).2).hoveredWallId
        rw [wallLoad_hovered]
        exact h2
      · exact h3 o (by rw [← hcells.2]; exact ho)
  | wallConfig s w p hr ih => exact ih
  | width s w hr ih => exact ih
  | height s h hr ih => exact ih
  | length s l hr ih => exact ih
  | dims s w h l hr ih => exact ih

/-- C5: in every reachable state of the wall store — after construction,
any sequence of UI events (click-selection, hover, deselection, setter
mutations) and any reload from storage — `selectedWallId` and
`hoveredWallId` are each either `null` or one of the four editable ids
`front`, `back`, `left`, `right`. -/
theorem wallIds_always_editable (s : AppState) (h : Reachable s) :
    ValidOptId s.wall.selectedWallId ∧ ValidOptId s.wall.hoveredWallId :=
  ⟨(stateInv_preserved s h).1, (stateInv_preserved s h).2.1⟩

/-- Witness for C5 at the initial state. -/
theorem wallIds_always_editable_witness :
    ValidOptId AppState.initial.wall.selectedWallId ∧
    ValidOptId AppState.initial.wall.hoveredWallId :=
  wallIds_always_editable AppState.initial Reachable.init

/-! ## C8 -/

/-- C8: in the orbit look controls, every mousemove processed while
dragging leaves the pitch within `[-π/2, π/2]` and the camera at the
origin, while the yaw is unconstrained (any target yaw is realizable by a
single drag delta). -/
theorem orbit_pitch_clamped (s : OrbitState) (x y : ℝ) (h : s.isDragging = true) :
    (-(Real.pi / 2) ≤ (s.mouseMove x y).rotationX ∧
      (s.mouseMove x y).rotationX ≤ Real.pi / 2)
    ∧ ((s.mouseMove x y).camX = 0 ∧ (s.mouseMove x y).camY = 0 ∧
      (s.mouseMove x y).camZ = 0)
    ∧ (∀ target : ℝ, ∃ x' : ℝ, (s.mouseMove x' y).rotationY = target) := by
  have hne : ¬s.isDragging = false := by rw [h]; simp
  refine ⟨⟨?_, ?_⟩, ?_, fun target => ?_⟩
  · simp only [OrbitState.mouseMove, if_neg hne]
    exact le_max_left _ _
  · simp only [OrbitState.mouseMove, if_neg hne]
    exact max_le (by linarith [Real.pi_pos]) (min_le_left _ _)
  · simp only [OrbitState.mouseMove, if_neg hne]
    refine ⟨?_, ?_, ?_⟩ <;> trivial
  · refine ⟨s.prevX + (s.rotationY - target) / 0.005, ?_⟩
    simp only [OrbitState.mouseMove, if_neg hne]
    field_simp
    ring

/-- A concrete dragging state for the C8 witness. -/
noncomputable def dragState : OrbitState :=
  { isDragging := true, prevX := 0, prevY := 0, rotationX := 0, rotationY := 0,
    camX := 0, camY := 0, camZ := 0 }

/-- Witness for C8: one processed drag step from the dragging state at
the origin. -/
theorem orbit_pitch_clamped_witness :
    dragState.isDragging = true ∧
    (-(Real.pi / 2) ≤ (dragState.mouseMove 1 2).rotationX ∧
      (dragState.mouseMove 1 2).rotationX ≤ Real.pi / 2) :=
  ⟨rfl, (orbit_pitch_clamped dragState 1 2 rfl).1⟩

/-! ## C1 -/

lemma jsMod_eq_mul_fract (a b : ℚ) (hb : b ≠ 0) :
    jsMod a b = b * Int.fract (a / b) := by
  rw [jsMod, Int.fract]
  field_simp

lemma jsMod_nonneg (a b : ℚ) (hb : 0 < b) : 0 ≤ jsMod a b := by
  rw [jsMod_eq_mul_fract a b hb.ne']
  exact mul_nonneg hb.le (Int.fract_nonneg _)

lemma jsMod_lt (a b : ℚ) (hb : 0 < b) : jsMod a b < b := by
  rw [jsMod_eq_mul_fract a b hb.ne']
  calc b * Int.fract (a / b) < b * 1 :=
        mul_lt_mul_of_pos_left (Int.fract_lt_one _) hb
    _ = b := mul_one b

lemma jsMod_add (a c b : ℚ) (hb : b ≠ 0) :
    jsMod (jsMod a b + c) b = jsMod (a + c) b := by
  rw [jsMod_eq_mul_fract a b hb, jsMod_eq_mul_fract _ _ hb, jsMod_eq_mul_fract _ _ hb]
  congr 1
  have h1 : (b * Int.fract (a / b) + c) / b = Int.fract (a / b) + c / b := by
    field_simp
    ring
  have h2 : Int.fract (a / b) + c / b = (a / b + c / b) - (⌊a / b⌋ : ℤ) := by
    rw [Int.fract]
    ring
  rw [h1, h2, Int.fract_sub_int, ← add_div]

lemma jsMod_small (u p : ℚ) (h0 : 0 ≤ u) (h1 : u < p) : jsMod u p = u := by
  have hp : 0 < p := lt_of_le_of_lt h0 h1
  rw [jsMod]
  have hz : ⌊u / p⌋ = 0 := by
    rw [Int.floor_eq_zero_iff]
    exact ⟨div_nonneg h0 hp.le, by rwa [div_lt_one hp]⟩
  rw [hz]
  push_cast
  ring

lemma jsMod_add_right (s p : ℚ) (hp : p ≠ 0) : jsMod (s + p) p = jsMod s p := by
  rw [jsMod, jsMod]
  have h1 : (s + p) / p = s / p + 1 := by field_simp
  rw [h1, Int.floor_add_one]
  push_cast
  ring

lemma segmentLength_pos : (0 : ℚ) < segmentLength := by
  norm_num [segmentLength, dashLength, gapLength]

lemma edgeDashSegments_succ (half startX : ℚ) (fuel : ℕ) :
    edgeDashSegments half (fuel + 1) startX =
      if half ≤ startX then []
      else if 0 < min (startX + dashLength) half - startX then
        (startX, min (startX + dashLength) half) ::
          edgeDashSegments half fuel (startX + segmentLength)
      else edgeDashSegments half fuel (startX + segmentLength) := rfl

lemma edgeDashSegments_mem (half : ℚ) :
    ∀ (fuel : ℕ) (startX : ℚ), ∀ p ∈ edgeDashSegments half fuel startX,
      0 < p.2 - p.1 ∧ p.2 - p.1 ≤ dashLength ∧ startX ≤ p.1 ∧ p.2 ≤ half := by
  intro fuel
  induction fuel with
  | zero =>
      intro startX p hp
      exact absurd hp (List.not_mem_nil p)
  | succ fuel ih =>
      intro startX p hp
      rw [edgeDashSegments_succ] at hp
      by_cases hbr : half ≤ startX
      · rw [if_pos hbr] at hp
        exact absurd hp (List.not_mem_nil p)
      · rw [if_neg hbr] at hp
        by_cases hc : 0 < min (startX + dashLength) half - startX
        · rw [if_pos hc] at hp
          rcases List.mem_cons.mp hp with rfl | hp
          · refine ⟨hc, ?_, le_refl _, min_le_right _ _⟩
            have : min (startX + dashLength) half ≤ startX + dashLength :=
              min_le_left _ _
            simp only
            linarith
          · obtain ⟨g1, g2, g3, g4⟩ := ih (startX + segmentLength) p hp
            exact ⟨g1, g2, le_trans (by linarith [segmentLength_pos]) g3, g4⟩
        · rw [if_neg hc] at hp
          obtain ⟨g1, g2, g3, g4⟩ := ih (startX + segmentLength) p hp
          exact ⟨g1, g2, le_trans (by linarith [segmentLength_pos]) g3, g4⟩

lemma edgeDashSegments_head (half : ℚ) (fuel : ℕ) (startX : ℚ) :
    edgeDashSegments half fuel startX = [] ∨
    ∃ rest, edgeDashSegments half fuel startX =
      (startX, min (startX + dashLength) half) :: rest := by
  cases fuel with
  | zero => exact Or.inl rfl
  | succ fuel =>
      by_cases hbr : half ≤ startX
      · exact Or.inl (by rw [edgeDashSegments_succ, if_pos hbr])
      · by_cases hc : 0 < min (startX + dashLength) half - startX
        · exact Or.inr ⟨edgeDashSegments half fuel (startX + segmentLength),
            by rw [edgeDashSegments_succ, if_neg hbr, if_pos hc]⟩
        · exfalso
          apply hc
          have h2 : startX < half := not_le.mp hbr
          have h3 : startX < startX + dashLength := by
            norm_num [dashLength]
          have : startX < min (startX + dashLength) half := lt_min h3 h2
          linarith

lemma edgeDashSegments_chain (half : ℚ) :
    ∀ (fuel : ℕ) (startX : ℚ),
      List.Chain' (fun p q : ℚ × ℚ => q.1 - p.1 = segmentLength)
        (edgeDashSegments half fuel startX) := by
  intro fuel
  induction fuel with
  | zero =>
      intro startX
      exact List.chain'_nil
  | succ fuel ih =>
      intro startX
      rw [edgeDashSegments_succ]
      by_cases hbr : half ≤ startX
      · rw [if_pos hbr]
        exact List.chain'_nil
      · rw [if_neg hbr]
        by_cases hc : 0 < min (startX + dashLength) half - startX
        · rw [if_pos hc]
          refine List.chain'_cons'.mpr ⟨?_, ih (startX + segmentLength)⟩
          intro b hb
          rcases edgeDashSegments_head half fuel (startX + segmentLength) with
            hnil | ⟨rest, hcons⟩
          · rw [hnil] at hb
            cases hb
          · rw [hcons, List.head?_cons] at hb
            obtain rfl : b = (startX + segmentLength,
                min (startX + segmentLength + dashLength) half) := by
              cases hb
              rfl
            simp only
            ring
        · rw [if_neg hc]
          exact ih (startX + segmentLength)

lemma edgeDashes_mem (len : ℚ) :
    ∀ p ∈ edgeDashes len, 0 < p.2 - p.1 ∧ p.2 - p.1 ≤ dashLength := by
  intro p hp
  obtain ⟨g1, g2, -, -⟩ :=
    edgeDashSegments_mem (len / 2) (⌈len / segmentLength⌉.toNat) (-(len / 2)) p hp
  exact ⟨g1, g2⟩

lemma edgeDashes_chain (len : ℚ) :
    List.Chain' (fun p q : ℚ × ℚ => q.1 - p.1 = segmentLength) (edgeDashes len) :=
  edgeDashSegments_chain _ _ _

/-- C1: for every wall of positive width `W` and height `H`, the
perimeter indicator stores the closed rectangular path length
`2 * (W + H)`; the dash pattern uses dash length `0.15` m and gap length
`0.08` m — the modelled closed-path pattern has dashes exactly on the
first `dashLength` of each period and gaps on the rest, is periodic and
translates with the phase offset, and the concrete per-edge dashes built
by `createWallPerimeterLine` have length in `(0, 0.15]` with consecutive
dash starts `0.15 + 0.08` apart; on every rendered frame the offset is
`(time * 0.5) mod` the stored perimeter length, lies in
`[0, 2 * (W + H))` and advances with time modulo `2 * (W + H)`. -/
theorem perimeter_dash_pattern (W H : ℚ) (hW : 0 < W) (hH : 0 < H) :
    (createWallPerimeterLine W H).perimeterLength = 2 * (W + H)
    ∧ dashLength = 0.15 ∧ gapLength = 0.08
    ∧ (∀ t u : ℚ, 0 ≤ u → u < dashLength → onDash t (t + u))
    ∧ (∀ t u : ℚ, dashLength ≤ u → u < dashLength + gapLength → ¬onDash t (t + u))
    ∧ (∀ t s : ℚ, onDash t (s + (dashLength + gapLength)) ↔ onDash t s)
    ∧ (∀ t s δ : ℚ, onDash (t + δ) (s + δ) ↔ onDash t s)
    ∧ (∀ p ∈ edgeDashes W, 0 < p.2 - p.1 ∧ p.2 - p.1 ≤ dashLength)
    ∧ List.Chain' (fun p q : ℚ × ℚ => q.1 - p.1 = dashLength + gapLength)
        (edgeDashes W)
    ∧ (∀ time : ℚ, 0 ≤ time →
        0 ≤ animationOffset time (createWallPerimeterLine W H).perimeterLength ∧
        animationOffset time (createWallPerimeterLine W H).perimeterLength <
          2 * (W + H))
    ∧ (∀ time δ : ℚ,
        animationOffset (time + δ) (2 * (W + H)) =
          jsMod (animationOffset time (2 * (W + H)) + δ * 0.5) (2 * (W + H))) := by
  have hL : (0 : ℚ) < 2 * (W + H) := by linarith
  have hP : (0 : ℚ) < dashLength + gapLength := by
    norm_num [dashLength, gapLength]
  have hd : (0 : ℚ) < dashLength := by norm_num [dashLength]
  have hg : (0 : ℚ) ≤ gapLength := by norm_num [gapLength]
  refine ⟨rfl, rfl, rfl, ?_, ?_, ?_, ?_, edgeDashes_mem W, edgeDashes_chain W,
    ?_, ?_⟩
  · intro t u h0 h1
    show jsMod (t + u - t) (dashLength + gapLength) < dashLength
    rw [show t + u - t = u by ring, jsMod_small u _ h0 (by linarith)]
    exact h1
  · intro t u h0 h1
    show ¬jsMod (t + u - t) (dashLength + gapLength) < dashLength
    rw [show t + u - t = u by ring, jsMod_small u _ (by linarith) h1]
    exact not_lt.mpr h0
  · intro t s
    show jsMod (s + (dashLength + gapLength) - t) (dashLength + gapLength) <
        dashLength ↔ jsMod (s - t) (dashLength + gapLength) < dashLength
    rw [show s + (dashLength + gapLength) - t = (s - t) + (dashLength + gapLength)
      by ring]
    rw [jsMod_add_right _ _ hP.ne']
  · intro t s δ
    show jsMod (s + δ - (t + δ)) (dashLength + gapLength) < dashLength ↔
      jsMod (s - t) (dashLength + gapLength) < dashLength
    rw [show s + δ - (t + δ) = s - t by ring]
  · intro time _
    exact ⟨jsMod_nonneg _ _ hL, jsMod_lt _ _ hL⟩
  · intro time δ
    rw [animationOffset, animationOffset, jsMod_add _ _ _ hL.ne']
    congr 1
    ring

/-- Witness for C1 at a wall of width 3 and height 2 meters. -/
theorem perimeter_dash_pattern_witness :
    (0 : ℚ) < 3 ∧ (0 : ℚ) < 2 ∧
      (createWallPerimeterLine 3 2).perimeterLength = 2 * (3 + 2) :=
  ⟨by decide, by decide, (perimeter_dash_pattern 3 2 (by decide) (by decide)).1⟩

end EasyTile
